import Mathlib

/-!
A shallow embedding of the email-classification pipeline of this repository
(`ml/prepare_training_data.py` and `ml/train_model.py`), together with
theorems settling the specification claims about it.

Conventions of the embedding:
* Python strings become `String` / `List Char`; `len` is the number of
  characters, as in Python.
* Python's substring test `needle in text` becomes `substrB`.
* The two regular expressions of `extract_features` are small enough to be
  embedded as explicit matchers (`tonnageAt`, `vesselAt`); each doc comment
  records the argument that the deterministic matcher is equivalent to the
  backtracking regex search.
* Floating-point quantities (accuracies, scaler statistics) are modelled over
  `ℚ`; the claims settled here depend only on which data a value was computed
  from and on order comparisons, not on rounding.
* External `sklearn` calls (fitting a model) are opaque to the pipeline; where
  a claim concerns their success or failure they are modelled as an
  `Except`-valued parameter, and where it concerns only the resulting
  accuracy, as a supplied `ℚ` value.
-/

/-- An input email record (the dict consumed by `extract_features` in
`ml/prepare_training_data.py`).  Python's `email.get(key, '')` makes a
missing field behave as the empty string, so the fields are total here. -/
structure Email where
  subject : String
  body : String
  sender : String
deriving DecidableEq, Repr

/-- Line 201 of `ml/prepare_training_data.py`:
`text = f"{email.get('subject', '')} {email.get('body', '')}".lower()`,
as a character list.  Python's `str.lower` lower-cases character by
character; `Char.toLower` agrees with it on ASCII, which covers every
character the keyword and pattern checks test for. -/
def searchText (e : Email) : List Char :=
  ((e.subject ++ " " ++ e.body).toList).map Char.toLower

/-- Python's substring test `needle in text`: some suffix of the haystack
starts with the needle. -/
def substrB (needle : String) (hay : List Char) : Bool :=
  hay.tails.any (fun t => needle.toList.isPrefixOf t)

/-- The `cargo_keywords` list of `extract_features`
(`ml/prepare_training_data.py`, lines 204-213), transcribed verbatim. -/
def cargo_keywords : List String :=
  ["cargo", "shipment", "loading", "discharge", "commodity", "mt", "metric tons",
   "teu", "container", "bulk", "breakbulk", "project cargo", "reefer",
   "grain", "coal", "iron ore", "steel", "chemical", "oil", "lng", "cement",
   "timber", "logs", "rice", "wheat", "sugar", "fertilizer", "bauxite",
   "alumina", "copper", "nickel", "scrap", "metal", "frozen", "food",
   "electronics", "automotive", "parts", "machinery", "equipment",
   "need vessel", "looking for vessel", "require vessel", "booking",
   "freight rate", "laycan", "load port", "discharge port", "destination"]

/-- The `vessel_keywords` list of `extract_features`
(`ml/prepare_training_data.py`, lines 216-226), transcribed verbatim. -/
def vessel_keywords : List String :=
  ["vessel", "ship", "mv", "m/v", "dwt", "draft", "loa", "beam", "open",
   "available", "position", "charter", "hire", "tc", "time charter",
   "voyage charter", "spot", "panamax", "capesize", "handymax", "handysize",
   "supramax", "ultramax", "vlcc", "suezmax", "aframax", "tanker",
   "bulk carrier", "container vessel", "general cargo", "multipurpose",
   "mpp", "heavy lift", "chemical tanker", "product tanker", "lng carrier",
   "lpg carrier", "car carrier", "pctc", "roro", "reefer vessel",
   "crane", "gear", "geared", "gearless", "holds", "hatches",
   "ice class", "double hull", "certificates", "class", "flag"]

/-- Characters matched by the regex class `\s` on the (ASCII) texts this
program handles: space, tab, newline, carriage return, vertical tab, form
feed.  (Python's `\s` additionally matches some rare Unicode whitespace;
none of the claims exercises those.) -/
def pySpace (c : Char) : Bool :=
  c = ' ' || c = '\t' || c = '\n' || c = '\r' || c = '\x0b' || c = '\x0c'

/-- Characters matched by the regex class `[\s,]`. -/
def isSpaceComma (c : Char) : Bool := pySpace c || c = ','

/-- Characters matched by the regex class `\w` (ASCII fragment):
letters, digits, underscore. -/
def isWordChar (c : Char) : Bool := c.isAlphanum || c = '_'

/-- Does the alternation `(?:mt|tons?|dwt|teu|cbm)` match at the head of
`cs`?  For a search (existence) test the optional `s` of `tons?` is
irrelevant: the alternation matches at a position iff one of `mt`, `ton`,
`dwt`, `teu`, `cbm` is a prefix there. -/
def unitAt (cs : List Char) : Bool :=
  ("mt".toList).isPrefixOf cs || ("ton".toList).isPrefixOf cs ||
  ("dwt".toList).isPrefixOf cs || ("teu".toList).isPrefixOf cs ||
  ("cbm".toList).isPrefixOf cs

/-- Does `\d+[\s,]*(?:mt|tons?|dwt|teu|cbm)` match starting at the head of
`cs`?  Maximal munch is equivalent to the regex's backtracking here:
stopping `\d+` or `[\s,]*` early leaves a digit (resp. a space or comma)
where the next piece would have to match, and no unit token starts with a
digit, space or comma. -/
def tonnageAt (cs : List Char) : Bool :=
  match cs with
  | [] => false
  | c :: _ =>
    c.isDigit && unitAt ((cs.dropWhile Char.isDigit).dropWhile isSpaceComma)

/-- Line 233 of `ml/prepare_training_data.py`:
`bool(re.search(r'\d+[\s,]*(?:mt|tons?|dwt|teu|cbm)', text))` — the
pattern matches at some position of the text. -/
def hasTonnage (cs : List Char) : Bool := cs.tails.any tonnageAt

/-- Does `\s+[\w\s]+` match at the head of `cs`?  This tail needs at least
two characters; with backtracking it matches a prefix of `cs` iff the first
character is `\s` and the second is `\w` or `\s` (a longer `\s+` run only
ever supplies characters that `[\w\s]+` would also accept). -/
def vesselTailAt (cs : List Char) : Bool :=
  match cs with
  | c1 :: c2 :: _ => pySpace c1 && (isWordChar c2 || pySpace c2)
  | _ => false

/-- Does `m/?v\s+[\w\s]+` match starting at the head of `cs`? -/
def vesselAt (cs : List Char) : Bool :=
  match cs with
  | 'm' :: '/' :: 'v' :: rest => vesselTailAt rest
  | 'm' :: 'v' :: rest => vesselTailAt rest
  | _ => false

/-- Line 234 of `ml/prepare_training_data.py`:
`bool(re.search(r'm/?v\s+[\w\s]+', text))`. -/
def hasVesselName (cs : List Char) : Bool := cs.tails.any vesselAt

/-- The port-name alternatives of the regex on line 235. -/
def port_names : List String :=
  ["singapore", "rotterdam", "shanghai", "houston", "hamburg", "santos", "yokohama"]

/-- Line 235 of `ml/prepare_training_data.py`:
`bool(re.search(r'(singapore|rotterdam|shanghai|houston|hamburg|santos|yokohama)', text))`.
For an alternation of plain words, a regex search succeeds iff some
alternative occurs as a substring. -/
def hasPortNames (cs : List Char) : Bool :=
  port_names.any (fun p => substrB p cs)

/-- The shipping-indicative sender substrings of line 243. -/
def shipping_domains : List String :=
  ["shipping", "maritime", "vessel", "fleet", "tanker", "bulk"]

/-- The cargo-indicative sender substrings of line 244. -/
def cargo_domains : List String :=
  ["cargo", "logistics", "export", "import", "trade", "commodity"]

/-- The feature record produced by `extract_features`, with fields in the
order the Python dict acquires its keys (lines 229-244). -/
structure FeatureRecord where
  cargo_keyword_count : Nat
  vessel_keyword_count : Nat
  has_tonnage : Bool
  has_vessel_name : Bool
  has_port_names : Bool
  subject_length : Nat
  body_length : Nat
  is_shipping_domain : Bool
  is_cargo_domain : Bool
deriving DecidableEq, Repr

/-- `extract_features` (`ml/prepare_training_data.py`, lines 197-246).
The keyword counts embed
`sum(1 for keyword in cargo_keywords if keyword in text)`: the number of
list entries that occur as a substring of the search text.  The sender
checks are case-sensitive on the raw sender string, exactly as in the
source (`any(domain in sender for domain in [...])`). -/
def extract_features (email : Email) : FeatureRecord :=
  { cargo_keyword_count :=
      (cargo_keywords.filter (fun k => substrB k (searchText email))).length
  , vessel_keyword_count :=
      (vessel_keywords.filter (fun k => substrB k (searchText email))).length
  , has_tonnage := hasTonnage (searchText email)
  , has_vessel_name := hasVesselName (searchText email)
  , has_port_names := hasPortNames (searchText email)
  , subject_length := email.subject.length
  , body_length := email.body.length
  , is_shipping_domain :=
      shipping_domains.any (fun d => substrB d email.sender.toList)
  , is_cargo_domain :=
      cargo_domains.any (fun d => substrB d email.sender.toList) }

/-- A training record: an email together with its `type` label
(`'CARGO'` or `'VESSEL'` in the sample corpus). -/
structure LabeledEmail where
  email : Email
  type : String
deriving DecidableEq, Repr

/-- `prepare_dataset` (`ml/prepare_training_data.py`, lines 248-261): the
loop `for email in training_data: X.append(extract_features(email));
y.append(email['type'])`, embedded as a left fold that appends to the two
accumulators.  The source iterates the module-level `training_data`; the
corpus is a parameter here so the claims can quantify over it.  The first
component is the feature matrix `X` (the rows of `pd.DataFrame(X)`), the
second the label column `y`. -/
def prepare_dataset (data : List LabeledEmail) :
    List FeatureRecord × List String :=
  data.foldl
    (fun acc r => (acc.1 ++ [extract_features r.email], acc.2 ++ [r.type]))
    ([], [])

/-- The column order of the DataFrame built by `prepare_dataset`: pandas
keeps the key-insertion order of the feature dicts (lines 229-244 of
`ml/prepare_training_data.py`), i.e. the `FeatureRecord` field order. -/
def featureRecordFields : List String :=
  ["cargo_keyword_count", "vessel_keyword_count", "has_tonnage",
   "has_vessel_name", "has_port_names", "subject_length", "body_length",
   "is_shipping_domain", "is_cargo_domain"]

/-- The columns of the persisted training table: the feature columns plus
the trailing `label` column appended by `df_features['label'] = y`
(line 259 of `ml/prepare_training_data.py`). -/
def datasetColumns : List String := featureRecordFields ++ ["label"]

/-- Line 20 of `ml/train_model.py`:
`feature_columns = [col for col in df.columns if col != 'label']`. -/
def feature_columns : List String :=
  datasetColumns.filter (fun c => c ≠ "label")

/-- The numeric value a `FeatureRecord` contributes to a named DataFrame
column (booleans coerce to 0/1 when `sklearn` converts the matrix to
floats).  The `0` fallback is unreachable for the columns the trainer
consumes: every entry of `feature_columns` is one of the nine field
names. -/
def FeatureRecord.col (fr : FeatureRecord) (c : String) : ℚ :=
  if c = "cargo_keyword_count" then fr.cargo_keyword_count
  else if c = "vessel_keyword_count" then fr.vessel_keyword_count
  else if c = "has_tonnage" then (if fr.has_tonnage then 1 else 0)
  else if c = "has_vessel_name" then (if fr.has_vessel_name then 1 else 0)
  else if c = "has_port_names" then (if fr.has_port_names then 1 else 0)
  else if c = "subject_length" then fr.subject_length
  else if c = "body_length" then fr.body_length
  else if c = "is_shipping_domain" then (if fr.is_shipping_domain then 1 else 0)
  else if c = "is_cargo_domain" then (if fr.is_cargo_domain then 1 else 0)
  else 0

/-- Line 21 of `ml/train_model.py`: one row of `X = df[feature_columns].values`
— the record projected onto the feature columns, in column order. -/
def toRow (fr : FeatureRecord) : List ℚ :=
  feature_columns.map fr.col

/-- The candidate models of `ml/train_model.py` (lines 35-58), in the
declaration order of the `models` dict. -/
def candidateNames : List String :=
  ["RandomForest", "GradientBoosting", "LogisticRegression", "SVM"]

/-- The scale-sensitivity test used on lines 69, 98 and 114 of
`ml/train_model.py`: `name in ['LogisticRegression', 'SVM']`. -/
def needsScaling (name : String) : Bool :=
  name = "LogisticRegression" || name = "SVM"

/-- One step of the selection loop (`ml/train_model.py`, lines 89-92):
`if accuracy > best_score: best_score = accuracy; best_model = model;
best_model_name = name`.  The state is `(best_model_name, best_score)`;
`best_model` is determined by the name. -/
def selStep (acc : Option String × ℚ) (r : String × ℚ) : Option String × ℚ :=
  if r.2 > acc.2 then (some r.1, r.2) else acc

/-- The selection loop over the per-candidate held-out accuracies, with the
initial state `best_model = None`, `best_score = 0` (lines 60-62 of
`ml/train_model.py`).  `results` pairs each candidate name, in declaration
order, with the held-out test accuracy computed for it in the loop body. -/
def selectBest (results : List (String × ℚ)) : Option String × ℚ :=
  results.foldl selStep (none, 0)

/-- The running maximum of `b` and the accuracies of `results` — the value
`best_score` would reach if every comparison updated it. -/
def runningMax (results : List (String × ℚ)) (b : ℚ) : ℚ :=
  results.foldl (fun m r => max m r.2) b

/-- The comparison loop of `ml/train_model.py` (lines 67-92) with the
external `sklearn` work abstracted: `outcome name` is `Except.ok a` when
fitting/evaluating that candidate succeeds with held-out accuracy `a`, and
`Except.error ()` when the candidate raises (fails to fit or converge).
The loop body has no `try`/`except`, so in the embedding the fold runs in
the `Except` monad: the first failing candidate aborts the whole fold,
exactly as an uncaught Python exception aborts the run. -/
def candidateLoop (outcome : String → Except Unit ℚ) :
    List String → Option String × ℚ → Except Unit (Option String × ℚ)
  | [], acc => Except.ok acc
  | n :: rest, acc =>
    match outcome n with
    | Except.error e => Except.error e
    | Except.ok a => candidateLoop outcome rest (selStep acc (n, a))

/-- The comparison loop entered with the initial state of lines 60-62. -/
def runCandidates (outcome : String → Except Unit ℚ) (names : List String) :
    Except Unit (Option String × ℚ) :=
  candidateLoop outcome names (none, 0)

/-- The state of a fitted `StandardScaler`: per-feature mean and population
variance (`sklearn` stores `mean_` and `var_` with `ddof = 0`; the derived
`scale_ = sqrt(var_)` is irrational in general and fully determined by
`var`, so it is omitted). -/
structure ScalerState where
  mean : List ℚ
  var : List ℚ
deriving DecidableEq, Repr

/-- The number of feature columns of a (rectangular) matrix. -/
def nCols (x : List (List ℚ)) : Nat := (x.headD []).length

/-- Column `j` of a matrix. -/
def matCol (x : List (List ℚ)) (j : Nat) : List ℚ :=
  x.map (fun row => row.getD j 0)

/-- Arithmetic mean of a list (0 on the empty list, which the trainer never
feeds a fitted scaler). -/
def listMean (l : List ℚ) : ℚ := l.sum / l.length

/-- Population variance of a list (`ddof = 0`, as in `StandardScaler`). -/
def listVar (l : List ℚ) : ℚ :=
  ((l.map (fun v => (v - listMean l) * (v - listMean l))).sum) / l.length

/-- `StandardScaler.fit` on a feature matrix: per-column mean and
population variance. -/
def fitScaler (x : List (List ℚ)) : ScalerState :=
  { mean := (List.range (nCols x)).map (fun j => listMean (matCol x j))
  , var := (List.range (nCols x)).map (fun j => listVar (matCol x j)) }

/-- The two observation points of the single `scaler` variable of
`train_email_classifier`.  Line 30 creates one `StandardScaler`; line 31
(`scaler.fit_transform(X_train)`) fits it on the train partition for the
candidate comparison; line 99 (`scaler.fit_transform(X)`) refits the same
object on the full feature matrix when the selected model needs scaling,
and only then.  `afterComparisonFit` is the variable's state after line 31,
`final` its state when line 102/107 persists the artifacts. -/
structure TrainerScalerTrace where
  afterComparisonFit : ScalerState
  final : ScalerState
deriving DecidableEq, Repr

/-- The scaler dataflow of `ml/train_model.py` (lines 29-32 and 97-104) for
a run whose train partition is `xTrain`, full feature matrix `xAll`, and
selected model `bestName`. -/
def scalerTrace (xTrain xAll : List (List ℚ)) (bestName : String) :
    TrainerScalerTrace :=
  { afterComparisonFit := fitScaler xTrain
  , final :=
      if needsScaling bestName then fitScaler xAll else fitScaler xTrain }

/-- The persisted scaler artifact: `joblib.dump(scaler, 'ml/scaler.pkl')`
runs only in the `needs_scaling` branch (line 102), dumping the current
state of the single `scaler` variable. -/
def persistedScaler (xTrain xAll : List (List ℚ)) (bestName : String) :
    Option ScalerState :=
  if needsScaling bestName then some (scalerTrace xTrain xAll bestName).final
  else none

/-- The metadata document of `ml/train_model.py` (lines 109-115). -/
structure ModelMetadata where
  model_type : String
  accuracy : ℚ
  feature_columns : List String
  classes : List String
  needs_scaling : Bool
deriving DecidableEq, Repr

/-- Assembly of the metadata dict (lines 109-115 of `ml/train_model.py`)
from the selected model's name and held-out accuracy. -/
def mkMetadata (bestName : String) (bestScore : ℚ) : ModelMetadata :=
  { model_type := bestName
  , accuracy := bestScore
  , feature_columns := feature_columns
  , classes := ["CARGO", "VESSEL"]
  , needs_scaling := needsScaling bestName }

/-- The first sample email of the inference smoke test
(`ml/train_model.py`, lines 128-132). -/
def steelCoilsEmail : Email :=
  { subject := "Steel coils 5000 MT ready for shipment"
  , body := "We have steel coils ready at Shanghai port. Need vessel for Japan"
  , sender := "steel@export.cn" }

/-- Claim C9: on the email whose subject, body and sender are all empty (the
value Python's `email.get(field, '')` produces for absent fields), every
boolean feature is `false` and every count and length feature is `0`.  That
no field is undefined is structural in the embedding: `extract_features`
always returns a fully populated `FeatureRecord`. -/
theorem extract_features_empty :
    extract_features { subject := "", body := "", sender := "" } =
      { cargo_keyword_count := 0, vessel_keyword_count := 0,
        has_tonnage := false, has_vessel_name := false, has_port_names := false,
        subject_length := 0, body_length := 0,
        is_shipping_domain := false, is_cargo_domain := false } := by decide

/-- Claim C10: for every email, the cargo keyword count is at most 49 and the
vessel keyword count at most 52 — the sizes of the two fixed keyword lists.
The lower bound 0 is inherent in the counts being natural numbers. -/
theorem keyword_count_bounds (e : Email) :
    (extract_features e).cargo_keyword_count ≤ 49 ∧
    (extract_features e).vessel_keyword_count ≤ 52 := by
  constructor
  · have h := List.length_filter_le
      (fun k => substrB k (searchText e)) cargo_keywords
    simpa [extract_features, cargo_keywords] using h
  · have h := List.length_filter_le
      (fun k => substrB k (searchText e)) vessel_keywords
    simpa [extract_features, vessel_keywords] using h

/-- Claim C4: the persisted `feature_columns` metadata equals the
`FeatureRecord` field order produced by the dataset builder — the nine field
names in dict-insertion order — and its length equals the number of columns
of a training row `df[feature_columns].values`. -/
theorem feature_columns_schema :
    feature_columns = featureRecordFields ∧
    feature_columns =
      ["cargo_keyword_count", "vessel_keyword_count", "has_tonnage",
       "has_vessel_name", "has_port_names", "subject_length", "body_length",
       "is_shipping_domain", "is_cargo_domain"] ∧
    ∀ (name : String) (score : ℚ) (fr : FeatureRecord),
      (mkMetadata name score).feature_columns = featureRecordFields ∧
      (mkMetadata name score).feature_columns.length = (toRow fr).length := by
  have hfc : feature_columns = featureRecordFields := by decide
  refine ⟨hfc, by decide, fun name score fr => ⟨hfc, ?_⟩⟩
  simp [mkMetadata, toRow]

/-- Claim C5: the metadata's `needs_scaling` flag is true iff the selected
model is `LogisticRegression` or `SVM`, and false for the two tree
ensembles. -/
theorem needs_scaling_iff (score : ℚ) (name : String)
    (h : name ∈ candidateNames) :
    ((mkMetadata name score).needs_scaling = true ↔
      (name = "LogisticRegression" ∨ name = "SVM")) ∧
    ((name = "RandomForest" ∨ name = "GradientBoosting") →
      (mkMetadata name score).needs_scaling = false) := by
  simp only [candidateNames, List.mem_cons, List.not_mem_nil, or_false] at h
  rcases h with h | h | h | h <;> subst h <;>
    refine ⟨?_, ?_⟩ <;> simp only [mkMetadata] <;> decide

/-- Witness for `needs_scaling_iff` at the concrete candidates `SVM`
(scaled) and `RandomForest` (unscaled). -/
theorem needs_scaling_iff_witness :
    (mkMetadata "SVM" 1).needs_scaling = true ∧
    (mkMetadata "RandomForest" 1).needs_scaling = false :=
  ⟨((needs_scaling_iff 1 "SVM" (by decide)).1).mpr (Or.inr rfl),
   (needs_scaling_iff 1 "RandomForest" (by decide)).2 (Or.inl rfl)⟩

/-- Auxiliary: the append-accumulating fold of `prepare_dataset` computes the
two maps, for any starting accumulators. -/
theorem prepare_dataset_go (data : List LabeledEmail) :
    ∀ (xs : List FeatureRecord) (ys : List String),
      data.foldl
        (fun acc r => (acc.1 ++ [extract_features r.email], acc.2 ++ [r.type]))
        (xs, ys) =
      (xs ++ data.map (fun r => extract_features r.email),
       ys ++ data.map (fun r => r.type)) := by
  induction data with
  | nil => intro xs ys; simp
  | cons r t ih =>
    intro xs ys
    rw [List.foldl_cons]
    rw [ih (xs ++ [extract_features r.email]) (ys ++ [r.type])]
    simp

/-- Claim C6: the dataset builder applies `extract_features` to every
labeled record in input order, producing exactly one feature row per record
with row order equal to input order, and a label column equal to the
original labels, length-for-length. -/
theorem prepare_dataset_rows (data : List LabeledEmail) :
    prepare_dataset data =
      (data.map (fun r => extract_features r.email),
       data.map (fun r => r.type)) ∧
    (prepare_dataset data).1.length = data.length ∧
    (prepare_dataset data).2.length = data.length := by
  have h : prepare_dataset data =
      (data.map (fun r => extract_features r.email),
       data.map (fun r => r.type)) := by
    simpa [prepare_dataset] using prepare_dataset_go data [] []
  exact ⟨h, by rw [h]; simp, by rw [h]; simp⟩

/-- Claim C7: both keyword counts equal the number of distinct keyword
phrases from the respective fixed list that occur as a substring of the
lower-cased subject+body search text — the cardinality of the set of
matching phrases.  Multiple occurrences of one phrase therefore count once,
while substring-related phrases (e.g. `tanker` inside `chemical tanker`)
are distinct set elements and each count. -/
theorem keyword_count_distinct (e : Email) :
    (extract_features e).cargo_keyword_count =
      (cargo_keywords.toFinset.filter
        (fun k => substrB k (searchText e))).card ∧
    (extract_features e).vessel_keyword_count =
      (vessel_keywords.toFinset.filter
        (fun k => substrB k (searchText e))).card := by
  have hc : cargo_keywords.Nodup := by decide
  have hv : vessel_keywords.Nodup := by decide
  constructor
  · rw [← List.toFinset_filter,
      List.toFinset_card_of_nodup (hc.filter _)]
    rfl
  · rw [← List.toFinset_filter,
      List.toFinset_card_of_nodup (hv.filter _)]
    rfl

/-- Auxiliary: the tonnage pattern matches at a position whose text starts
with the seven characters `5000 mt`; the digit run, the space and the unit
prefix line up with the three pieces of the regex regardless of what
follows. -/
theorem tonnageAt_5000mt (rest : List Char) :
    tonnageAt ('5' :: '0' :: '0' :: '0' :: ' ' :: 'm' :: 't' :: rest) = true := by
  simp +decide [tonnageAt, List.dropWhile, isSpaceComma, pySpace, unitAt,
    List.isPrefixOf]

/-- Auxiliary: a text containing `5000 mt` as a substring satisfies the
tonnage regex search. -/
theorem hasTonnage_of_5000mt (cs : List Char)
    (h : substrB "5000 mt" cs = true) : hasTonnage cs = true := by
  have h' : cs.tails.any (fun t => ("5000 mt".toList).isPrefixOf t) = true := h
  rcases List.any_eq_true.mp h' with ⟨t, ht, hpre⟩
  have hp : "5000 mt".toList <+: t := by simpa using hpre
  rcases hp with ⟨rest, hrest⟩
  show cs.tails.any tonnageAt = true
  refine List.any_eq_true.mpr ⟨t, ht, ?_⟩
  rw [← hrest]
  exact tonnageAt_5000mt rest

/-- Claim C8: for every email whose lower-cased subject+body search text
contains `5000 mt` (i.e. whose raw text contains `5000 MT` up to case) and
matches no vessel-name pattern, the extracted features have
`has_tonnage = true` and `has_vessel_name = false`. -/
theorem tonnage_no_vessel (e : Email)
    (ht : substrB "5000 mt" (searchText e) = true)
    (hv : hasVesselName (searchText e) = false) :
    (extract_features e).has_tonnage = true ∧
    (extract_features e).has_vessel_name = false :=
  ⟨hasTonnage_of_5000mt _ ht, hv⟩

/-- Witness for `tonnage_no_vessel` at the smoke-test email
`Steel coils 5000 MT ready for shipment`. -/
theorem tonnage_no_vessel_witness :
    substrB "5000 mt" (searchText steelCoilsEmail) = true ∧
    hasVesselName (searchText steelCoilsEmail) = false ∧
    ((extract_features steelCoilsEmail).has_tonnage = true ∧
     (extract_features steelCoilsEmail).has_vessel_name = false) :=
  ⟨by decide, by decide, tonnage_no_vessel steelCoilsEmail (by decide) (by decide)⟩

/-- Auxiliary: the running maximum is at least its initial value. -/
theorem runningMax_init_le (l : List (String × ℚ)) :
    ∀ b : ℚ, b ≤ runningMax l b := by
  induction l with
  | nil => intro b; exact le_refl b
  | cons r t ih =>
    intro b
    show b ≤ runningMax t (max b r.2)
    exact le_trans (le_max_left _ _) (ih _)

/-- Auxiliary: every accuracy in the list is at most the running maximum. -/
theorem mem_le_runningMax (l : List (String × ℚ)) :
    ∀ (b : ℚ) (x : String × ℚ), x ∈ l → x.2 ≤ runningMax l b := by
  induction l with
  | nil => intro b x hx; exact absurd hx (List.not_mem_nil x)
  | cons r t ih =>
    intro b x hx
    rcases List.mem_cons.mp hx with h | h
    · subst h
      show x.2 ≤ runningMax t (max b x.2)
      exact le_trans (le_max_right _ _) (runningMax_init_le _ _)
    · show x.2 ≤ runningMax t (max b r.2)
      exact ih _ x h

/-- Auxiliary: if no accuracy beats the current best score, the selection
fold leaves the state unchanged. -/
theorem foldl_selStep_const (l : List (String × ℚ)) :
    ∀ (o : Option String) (b : ℚ), (∀ x ∈ l, x.2 ≤ b) →
      l.foldl selStep (o, b) = (o, b) := by
  induction l with
  | nil => intro o b _; rfl
  | cons r t ih =>
    intro o b h
    have hr : r.2 ≤ b := h r (List.mem_cons_self r t)
    have hstep : selStep (o, b) r = (o, b) := by
      simp only [selStep]
      rw [if_neg (not_lt.mpr hr)]
    rw [List.foldl_cons, hstep]
    exact ih o b (fun x hx => h x (List.mem_cons_of_mem r hx))

/-- Auxiliary: whenever some accuracy strictly beats the initial best score,
the selection fold returns the running maximum paired with the name of the
first candidate attaining it. -/
theorem foldl_selStep_spec (l : List (String × ℚ)) :
    ∀ (o : Option String) (b : ℚ), b < runningMax l b →
      l.foldl selStep (o, b) =
        ((l.find? (fun r => decide (runningMax l b ≤ r.2))).map Prod.fst,
          runningMax l b) := by
  induction l with
  | nil => intro o b hb; exact absurd hb (lt_irrefl b)
  | cons r t ih =>
    intro o b hb
    by_cases hr : b < r.2
    · have hmax : max b r.2 = r.2 := max_eq_right (le_of_lt hr)
      have hsel : selStep (o, b) r = (some r.1, r.2) := by
        simp only [selStep]
        rw [if_pos hr]
      by_cases h2 : r.2 < runningMax t r.2
      · have hRM : runningMax (r :: t) b = runningMax t r.2 := by
          show runningMax t (max b r.2) = runningMax t r.2
          rw [hmax]
        rw [hRM, List.foldl_cons, hsel, ih (some r.1) r.2 h2]
        rw [List.find?_cons_of_neg]
        exact fun hcon => absurd (of_decide_eq_true hcon) (not_le.mpr h2)
      · have heq : runningMax t r.2 = r.2 :=
          le_antisymm (not_lt.mp h2) (runningMax_init_le t r.2)
        have hRM : runningMax (r :: t) b = r.2 := by
          show runningMax t (max b r.2) = r.2
          rw [hmax, heq]
        have hall : ∀ x ∈ t, x.2 ≤ r.2 :=
          fun x hx => heq ▸ mem_le_runningMax t r.2 x hx
        rw [hRM, List.foldl_cons, hsel,
          foldl_selStep_const t (some r.1) r.2 hall]
        rw [List.find?_cons_of_pos]
        · rfl
        · exact decide_eq_true (le_refl r.2)
    · have hmax : max b r.2 = b := max_eq_left (not_lt.mp hr)
      have hRM : runningMax (r :: t) b = runningMax t b := by
        show runningMax t (max b r.2) = runningMax t b
        rw [hmax]
      have hb' : b < runningMax t b := hRM ▸ hb
      have hsel : selStep (o, b) r = (o, b) := by
        simp only [selStep]
        rw [if_neg hr]
      rw [hRM, List.foldl_cons, hsel, ih o b hb']
      rw [List.find?_cons_of_neg]
      exact fun hcon =>
        absurd (of_decide_eq_true hcon)
          (not_le.mpr (lt_of_le_of_lt (not_lt.mp hr) hb'))

/-- Claim C3 (amended): provided at least one candidate achieves strictly
positive held-out accuracy, the selection loop returns the strictly highest
held-out test accuracy together with the first candidate, in declaration
order, attaining it (first-seen wins on ties).  When every candidate scores
zero the `accuracy > best_score` guard never fires and no candidate is
selected — see `selectBest_zero_tie`. -/
theorem selectBest_first_max (results : List (String × ℚ))
    (h : 0 < runningMax results 0) :
    selectBest results =
      ((results.find? (fun r => decide (runningMax results 0 ≤ r.2))).map
          Prod.fst,
        runningMax results 0) :=
  foldl_selStep_spec results none 0 h

/-- Counterexample to claim C3 as stated: when all four candidates tie at
held-out accuracy 0 — every test prediction wrong — the claim requires the
first-declared candidate, `RandomForest`, to be selected; the loop of
`ml/train_model.py` (initial `best_score = 0`, strict `accuracy >
best_score`) instead selects nothing: `best_model_name` stays `None`. -/
theorem selectBest_zero_tie :
    selectBest
      [("RandomForest", 0), ("GradientBoosting", 0),
       ("LogisticRegression", 0), ("SVM", 0)] = (none, 0) ∧
    (none : Option String) ≠ some "RandomForest" := by
  refine ⟨by decide, ?_⟩
  intro hcon
  cases hcon

/-- Witness for `selectBest_first_max`: a run with a tie at the top between
the first and last candidates selects the first-declared one. -/
theorem selectBest_first_max_witness :
    (0 : ℚ) <
      runningMax
        [("RandomForest", 1), ("GradientBoosting", 1),
         ("LogisticRegression", 0), ("SVM", 1)] 0 ∧
    selectBest
      [("RandomForest", 1), ("GradientBoosting", 1),
       ("LogisticRegression", 0), ("SVM", 1)] = (some "RandomForest", 1) := by
  refine ⟨by decide, ?_⟩
  rw [selectBest_first_max _ (by decide)]
  decide

/-- Auxiliary: the comparison loop, started from any accumulator, aborts
whenever any candidate in the remaining list fails, because the loop body
has no exception handler. -/
theorem candidateLoop_error (outcome : String → Except Unit ℚ)
    (name : String) (hfail : outcome name = Except.error ()) :
    ∀ (names : List String), name ∈ names → ∀ (acc : Option String × ℚ),
      candidateLoop outcome names acc = Except.error () := by
  intro names
  induction names with
  | nil => intro h; exact absurd h (List.not_mem_nil name)
  | cons n t ih =>
    intro hmem acc
    cases houtcome : outcome n with
    | error e =>
      cases e
      simp [candidateLoop, houtcome]
    | ok a =>
      have hne : n ≠ name := by
        intro hcon
        rw [hcon, hfail] at houtcome
        cases houtcome
      have hmem' : name ∈ t := by
        rcases List.mem_cons.mp hmem with h | h
        · exact absurd h.symm hne
        · exact h
      simp only [candidateLoop, houtcome]
      exact ih hmem' _

/-- Claim C2 (amended): if any individual candidate model fails to fit or
converge during the comparison loop, the exception propagates and the
entire run aborts — even when other candidates would succeed.  There is no
per-candidate recovery, and no `NoViableModelError` exists in the code. -/
theorem runCandidates_aborts (outcome : String → Except Unit ℚ)
    (names : List String) (name : String)
    (hmem : name ∈ names) (hfail : outcome name = Except.error ()) :
    runCandidates outcome names = Except.error () :=
  candidateLoop_error outcome name hfail names hmem (none, 0)

/-- Candidate outcomes in which `RandomForest` raises during fitting and
every other candidate fits fine with held-out accuracy 1. -/
def failingOutcome : String → Except Unit ℚ :=
  fun n => if n = "RandomForest" then Except.error () else Except.ok 1

/-- Counterexample to claim C2 as stated: with `RandomForest` failing and
all three remaining candidates viable (accuracy 1), the claim requires the
run to continue and select among the survivors; the loop of
`ml/train_model.py` has no `try`/`except`, so the run aborts with the
propagated exception instead. -/
theorem runCandidates_no_recovery :
    failingOutcome "GradientBoosting" = Except.ok 1 ∧
    failingOutcome "LogisticRegression" = Except.ok 1 ∧
    failingOutcome "SVM" = Except.ok 1 ∧
    runCandidates failingOutcome candidateNames = Except.error () :=
  ⟨rfl, rfl, rfl, rfl⟩

/-- Witness for `runCandidates_aborts` at the concrete failing outcome. -/
theorem runCandidates_aborts_witness :
    "RandomForest" ∈ candidateNames ∧
    failingOutcome "RandomForest" = Except.error () ∧
    runCandidates failingOutcome candidateNames = Except.error () :=
  ⟨by decide, rfl,
    runCandidates_aborts failingOutcome candidateNames "RandomForest"
      (by decide) rfl⟩

/-- Claim C1 (amended): when the selected model needs scaling, the trainer
refits the scaler on the full feature matrix before persisting — the
persisted scaler carries the full-data statistics, and the comparison
phase fit the train-partition statistics.  However, both fits happen to
the single `scaler` instance of `train_email_classifier`: the final refit
overwrites the comparison-phase fit in place rather than leaving a
distinct, unchanged comparison scaler — see `scaler_overwritten`. -/
theorem scaler_refit_full (xTrain xAll : List (List ℚ)) (name : String)
    (h : needsScaling name = true) :
    persistedScaler xTrain xAll name = some (fitScaler xAll) ∧
    (scalerTrace xTrain xAll name).final = fitScaler xAll ∧
    (scalerTrace xTrain xAll name).afterComparisonFit = fitScaler xTrain := by
  refine ⟨?_, ?_, rfl⟩ <;> simp [persistedScaler, scalerTrace, h]

/-- Counterexample to claim C1 as stated: the code reuses the one `scaler`
object — `scaler.fit_transform(X)` on line 99 of `ml/train_model.py`
refits the very instance that line 31 fit on the train partition, so the
comparison scaler does not remain unchanged.  Concretely, with train
partition `[[0]]`, full matrix `[[0], [2]]` and the scale-needing
selection `SVM`, the single scaler's state at persist time
(`mean = [1]`, `var = [1]`) differs from its comparison-phase state
(`mean = [0]`, `var = [0]`): the train-partition fit has been
overwritten, and the persisted scaler is that same mutated instance. -/
theorem scaler_overwritten :
    (scalerTrace [[(0 : ℚ)]] [[0], [2]] "SVM").final ≠
      (scalerTrace [[(0 : ℚ)]] [[0], [2]] "SVM").afterComparisonFit := by
  have h1 : fitScaler [[(0 : ℚ)]] = { mean := [0], var := [0] } := by
    simp [fitScaler, nCols, matCol, listMean, listVar,
      show List.range 1 = [0] from rfl]
  have h2 : fitScaler [[(0 : ℚ)], [2]] = { mean := [1], var := [1] } := by
    simp [fitScaler, nCols, matCol, listMean, listVar,
      show List.range 1 = [0] from rfl]
    norm_num
  simp only [scalerTrace]
  simp +decide [needsScaling, h1, h2]

/-- Witness for `scaler_refit_full` at the same concrete run. -/
theorem scaler_refit_full_witness :
    needsScaling "SVM" = true ∧
    (persistedScaler [[(0 : ℚ)]] [[0], [2]] "SVM" =
        some (fitScaler [[0], [2]]) ∧
      (scalerTrace [[(0 : ℚ)]] [[0], [2]] "SVM").final =
        fitScaler [[0], [2]] ∧
      (scalerTrace [[(0 : ℚ)]] [[0], [2]] "SVM").afterComparisonFit =
        fitScaler [[(0 : ℚ)]]) :=
  ⟨by decide, scaler_refit_full [[0]] [[0], [2]] "SVM" (by decide)⟩
